import Mathlib

/-!
Verification development for the obskit repository: setting bindings
(toggle, slider, text, text area, dropdown with key/value resolution),
the settings tab manager state machine, and the logger registry.

Conventions of the shallow embedding:
- DOM side effects and user-overridable lifecycle hooks (`onActivate`,
  `onDeactivate`, `page.display`, container mutations) are recorded as an
  ordered event trace; each event is paired with a snapshot of the manager
  state at the moment the corresponding call fires, so "the flag was
  already set when the hook ran" is expressible.
- TypeScript object references to tab pages are modelled as indices into
  the manager's ordered tab list (`tabs`); the page's mutable `isActive`
  field lives in that list.
- Fallible code (`throw new Error(...)`) is modelled with `Except String`.
-/

set_option maxHeartbeats 1000000

namespace Obskit

/-! ## Dropdown options and key/value resolution (src/settings.ts, DropdownSetting) -/

/-- One entry of `DropdownSetting.options`: a `{key, label, value}` triple. -/
structure DropOption (T : Type) where
  key : String
  label : String
  value : T
deriving DecidableEq

/-- `DropdownSetting.getKeyForValue`: first option whose `value` equals the
argument; falls back to the first option's key, then to `""`. -/
def getKeyForValue {T : Type} [DecidableEq T] (options : List (DropOption T)) (v : T) : String :=
  match options.find? (fun o => decide (o.value = v)) with
  | some o => o.key
  | none =>
    match options with
    | o :: _ => o.key
    | [] => ""

/-- `DropdownSetting.getValueForKey`: first option whose `key` equals the
argument; throws `No option found for key: k` when none matches. -/
def getValueForKey {T : Type} (options : List (DropOption T)) (k : String) : Except String T :=
  match options.find? (fun o => decide (o.key = k)) with
  | some o => Except.ok o.value
  | none => Except.error ("No option found for key: " ++ k)

/-! ## Change handlers of the setting bindings (src/settings.ts)

Each binding's `display` registers a control-level change handler.  The
handler is embedded as a function of the abstract value accessors
(`get`/`set` over an external state `σ`), the presence of a registered
observer, the current external state and the value reported by the
control.  It returns the state after the write together with the argument
passed to the observer (`none` when no observer is registered or none is
invoked). -/

/-- `ToggleSetting.display`'s change handler:
`this.value = value; this._onChange?.(this.value)`. -/
def toggleChange {σ : Type} (get : σ → Bool) (set : σ → Bool → σ)
    (hasObserver : Bool) (s : σ) (v : Bool) : σ × Option Bool :=
  let s1 := set s v
  (s1, if hasObserver then some (get s1) else none)

/-- `SliderSetting.display`'s change handler (numbers modelled as `ℚ`):
`this.value = value; this._onChange?.(this.value)`. -/
def sliderChange {σ : Type} (get : σ → ℚ) (set : σ → ℚ → σ)
    (hasObserver : Bool) (s : σ) (v : ℚ) : σ × Option ℚ :=
  let s1 := set s v
  (s1, if hasObserver then some (get s1) else none)

/-- `TextInputSetting.display`'s change handler:
`this.value = value; this._onChange?.(this.value)`. -/
def textInputChange {σ : Type} (get : σ → String) (set : σ → String → σ)
    (hasObserver : Bool) (s : σ) (v : String) : σ × Option String :=
  let s1 := set s v
  (s1, if hasObserver then some (get s1) else none)

/-- `TextAreaSetting.display`'s change handler:
`this.value = value; this._onChange?.(this.value)`. -/
def textAreaChange {σ : Type} (get : σ → String) (set : σ → String → σ)
    (hasObserver : Bool) (s : σ) (v : String) : σ × Option String :=
  let s1 := set s v
  (s1, if hasObserver then some (get s1) else none)

/-- `DropdownSetting.display`'s change handler:
`this.value = this.getValueForKey(key); this._onChange?.(this.value)`.
`getValueForKey` is evaluated first; when it throws, the write and the
notification do not happen and the error propagates. -/
def dropdownChange {σ T : Type} (options : List (DropOption T))
    (get : σ → T) (set : σ → T → σ) (hasObserver : Bool)
    (s : σ) (key : String) : Except String (σ × Option T) :=
  match getValueForKey options key with
  | Except.error e => Except.error e
  | Except.ok v =>
    let s1 := set s v
    Except.ok (s1, if hasObserver then some (get s1) else none)

/-! ## Tab pages and the tab manager state machine -/

/-- A `SettingsTabPage` as the manager sees it: its `name` and its mutable
`isActive` flag (initialized to `false` by the page constructor). -/
structure Page where
  name : String
  isActive : Bool
deriving DecidableEq

/-- The page constructor: `isActive` starts `false`. -/
def newPage (name : String) : Page := ⟨name, false⟩

/-- Default used only to totalize list indexing in statements. -/
def defaultPage : Page := ⟨"", false⟩

/-- `SettingsTabPage.id`: lowercase the name and replace each maximal run
of whitespace by a single hyphen (`name.toLowerCase().replace(/\s+/g, "-")`). -/
def collapseWs : List Char → List Char
  | [] => []
  | [c] => if c.isWhitespace then ['-'] else [c]
  | c :: c2 :: rest =>
    if c.isWhitespace then
      if c2.isWhitespace then collapseWs (c2 :: rest)
      else '-' :: collapseWs (c2 :: rest)
    else c :: collapseWs (c2 :: rest)

def pageId (name : String) : String := String.mk (collapseWs name.toLower.data)

/-- Observable calls made by the manager: lifecycle hooks on pages
(identified by index) and DOM mutations. -/
inductive Ev where
  | deactivate (i : Nat)
  | activate (i : Nat)
  | displayContent (i : Nat)
  | emptyContent
  | emptyContainer
  | createTabContainer
  | createContentContainer
  | createButton (name : String)
  | updateStyles
deriving DecidableEq

/-- Mutable state shared by `SettingsTabManager` (part_001) and the
part_000 `PluginSettingsTab`: the ordered tab registry, the reference to
the active tab (as an index), and whether the two rendered regions exist. -/
structure ManagerState where
  tabs : List Page
  activeTab : Option Nat
  tabContainer : Bool
  contentContainer : Bool
deriving DecidableEq

/-- A trace entry: the event together with the manager state at the moment
the call fires. -/
abbrev TEv := Ev × ManagerState

/-- A fresh manager: empty registry, no active tab, no rendered regions. -/
def newManager : ManagerState := ⟨[], none, false, false⟩

/-- `addTab`: append one page to the registry. -/
def addTab (s : ManagerState) (p : Page) : ManagerState :=
  { s with tabs := s.tabs ++ [p] }

/-- `addTabs`: append several pages to the registry. -/
def addTabs (s : ManagerState) (ps : List Page) : ManagerState :=
  { s with tabs := s.tabs ++ ps }

/-- A fresh manager holding one just-constructed page per name. -/
def freshManager (names : List String) : ManagerState :=
  ⟨names.map newPage, none, false, false⟩

/-- Point update of the tab list (mutating one page's fields in place). -/
def modifyAt : List Page → Nat → (Page → Page) → List Page
  | [], _, _ => []
  | p :: rest, 0, f => f p :: rest
  | p :: rest, n + 1, f => p :: modifyAt rest n f

/-- The `isActive` flag of the page at index `j`. -/
def flagAt (s : ManagerState) (j : Nat) : Bool :=
  (s.tabs.getD j defaultPage).isActive

/-- The `if (this.activeTab) { this.activeTab.isActive = false;
this.activeTab.onDeactivate() }` step of `activateTab`. -/
def deactivateCurrent (s : ManagerState) : ManagerState × List TEv :=
  match s.activeTab with
  | some j =>
    let s1 := { s with tabs := modifyAt s.tabs j (fun p => { p with isActive := false }) }
    (s1, [(Ev.deactivate j, s1)])
  | none => (s, [])

/-- `updateTabButtonStyles`: touches the DOM only when the tab-button
region exists. -/
def updateTabButtonStyles (s : ManagerState) : List TEv :=
  if s.tabContainer then [(Ev.updateStyles, s)] else []

/-- `displayActiveTabContent`: returns early unless the content region
exists and a tab is active; otherwise empties the region and calls the
active page's `display`. -/
def displayActiveTabContent (s : ManagerState) : List TEv :=
  if s.contentContainer then
    match s.activeTab with
    | some i => [(Ev.emptyContent, s), (Ev.displayContent i, s)]
    | none => []
  else []

/-- `SettingsTabManager.activateTab` (identical in the part_000
`PluginSettingsTab`): deactivate the current tab if any, record the new
tab as active, set its flag, call `onActivate`, refresh button styles and
re-display the content region. -/
def activateTab (s : ManagerState) (i : Nat) : ManagerState × List TEv :=
  let d := deactivateCurrent s
  let s2 : ManagerState :=
    { d.1 with
      activeTab := some i
      tabs := modifyAt d.1.tabs i (fun p => { p with isActive := true }) }
  (s2, d.2 ++ [(Ev.activate i, s2)] ++ updateTabButtonStyles s2 ++ displayActiveTabContent s2)

/-- `setActiveTab(index)`: delegates to `activateTab` when
`0 ≤ index < tabs.length`, otherwise does nothing. -/
def setActiveTab (s : ManagerState) (index : Int) : ManagerState × List TEv :=
  if 0 ≤ index ∧ index < (s.tabs.length : Int) then
    activateTab s index.toNat
  else (s, [])

/-- Index of the first tab whose `id` equals the argument
(`this.tabs.find(t => t.id === id)`). -/
def findTabIdx : List Page → String → Option Nat
  | [], _ => none
  | p :: rest, id => if pageId p.name = id then some 0 else (findTabIdx rest id).map (· + 1)

/-- `setActiveTabById(id)`: delegates to `activateTab` on the first tab
with that id, otherwise does nothing. -/
def setActiveTabById (s : ManagerState) (id : String) : ManagerState × List TEv :=
  match findTabIdx s.tabs id with
  | some j => activateTab s j
  | none => (s, [])

/-- `SettingsTabManager.display` (part_001): error on an empty registry
BEFORE touching the container; otherwise empty the container, create the
two regions, create one button per tab, and activate the first tab. -/
def managerDisplay (s : ManagerState) : List TEv × Except String ManagerState :=
  if s.tabs.length = 0 then
    ([], Except.error "No tabs have been added to the manager")
  else
    let e1 : List TEv := [(Ev.emptyContainer, s)]
    let sTC : ManagerState := { s with tabContainer := true }
    let e2 : List TEv := [(Ev.createTabContainer, sTC)]
    let sCC : ManagerState := { sTC with contentContainer := true }
    let e3 : List TEv := [(Ev.createContentContainer, sCC)]
    let eBtns : List TEv := s.tabs.map (fun t => (Ev.createButton t.name, sCC))
    let r := activateTab sCC 0
    (e1 ++ e2 ++ e3 ++ eBtns ++ r.2, Except.ok r.1)

/-- `PluginSettingsTab.display` (part_000): empties the container FIRST,
then errors on an empty registry; otherwise identical to the manager. -/
def pstDisplay (s : ManagerState) : List TEv × Except String ManagerState :=
  let e1 : List TEv := [(Ev.emptyContainer, s)]
  if s.tabs.length = 0 then
    (e1, Except.error "No tabs have been added to the settings tab")
  else
    let sTC : ManagerState := { s with tabContainer := true }
    let e2 : List TEv := [(Ev.createTabContainer, sTC)]
    let sCC : ManagerState := { sTC with contentContainer := true }
    let e3 : List TEv := [(Ev.createContentContainer, sCC)]
    let eBtns : List TEv := s.tabs.map (fun t => (Ev.createButton t.name, sCC))
    let r := activateTab sCC 0
    (e1 ++ e2 ++ e3 ++ eBtns ++ r.2, Except.ok r.1)

/-- `PluginSettingsTab.hide` (both parts): if a tab is active, clear its
flag and call `onDeactivate`; the manager's `activeTab` reference is NOT
cleared. -/
def hideTab (s : ManagerState) : ManagerState × List TEv :=
  match s.activeTab with
  | some j =>
    let s1 := { s with tabs := modifyAt s.tabs j (fun p => { p with isActive := false }) }
    (s1, [(Ev.deactivate j, s1)])
  | none => (s, [])

/-! ## Operation language for activation sequences (claim C1) -/

/-- One externally reachable activation call: `activateTab` on a
registered tab (button click), `setActiveTab(index)`, or
`setActiveTabById(id)`. -/
inductive Op where
  | act (i : Nat)
  | setIdx (i : Int)
  | setById (id : String)

/-- State reached after one call (the DOM trace is dropped). -/
def stepOp (s : ManagerState) : Op → ManagerState
  | Op.act i => (activateTab s i).1
  | Op.setIdx i => (setActiveTab s i).1
  | Op.setById id => (setActiveTabById s id).1

/-- Validity of a call: `activateTab` is private and only ever invoked on
a registered tab (a button click or a guarded setter), so its index is in
range; the two public setters guard internally and accept anything. -/
def OpValid (n : Nat) : Op → Prop
  | Op.act i => i < n
  | Op.setIdx _ => True
  | Op.setById _ => True

/-- The page most recently activated after the call: the call's target
when it activates one, the previous reference when the call is a no-op. -/
def opTarget (s : ManagerState) : Op → Option Nat
  | Op.act i => some i
  | Op.setIdx i =>
    if 0 ≤ i ∧ i < (s.tabs.length : Int) then some i.toNat else s.activeTab
  | Op.setById id =>
    match findTabIdx s.tabs id with
    | some j => some j
    | none => s.activeTab

/-- Exactly one registered page is active, and it is the page the
manager's `activeTab` reference points to. -/
def Inv (s : ManagerState) : Prop :=
  ∃ i, s.activeTab = some i ∧ i < s.tabs.length ∧
    ∀ j, j < s.tabs.length → (flagAt s j = true ↔ j = i)

/-! ## Logger (src/logger.ts) -/

inductive LogLevel where
  | debug
  | info
  | warn
  | error
  | silent
deriving DecidableEq

def LogLevel.toInt : LogLevel → Int
  | LogLevel.debug => 30
  | LogLevel.info => 20
  | LogLevel.warn => 10
  | LogLevel.error => 0
  | LogLevel.silent => -1

structure Logger where
  name : String
  logLevel : LogLevel
deriving DecidableEq

/-- `shouldLog`: a message at `level` is emitted when
`level <= this._logLevel`. -/
def shouldLog (l : Logger) (level : LogLevel) : Bool :=
  level.toInt ≤ l.logLevel.toInt

/-- The static class state: the `loggers` map (insertion-ordered, as a
JavaScript `Map` is) and the global level, initially `ERROR`. -/
structure LoggerRegistry where
  loggers : List (String × Logger)
  globalLogLevel : LogLevel
deriving DecidableEq

def initialRegistry : LoggerRegistry := ⟨[], LogLevel.error⟩

/-- `Map.has`/`Map.get` combined: first entry with the given name. -/
def lookupLogger : List (String × Logger) → String → Option Logger
  | [], _ => none
  | (n, l) :: rest, name => if n = name then some l else lookupLogger rest name

/-- `Logger.getLogger`: return the registered logger when the name is
present; otherwise construct one at the current global level and register
it. -/
def getLogger (r : LoggerRegistry) (name : String) : Logger × LoggerRegistry :=
  match lookupLogger r.loggers name with
  | some l => (l, r)
  | none =>
    let l : Logger := ⟨name, r.globalLogLevel⟩
    (l, { r with loggers := r.loggers ++ [(name, l)] })

/-- `Logger.setGlobalLogLevel`: store the level and overwrite the level of
every registered logger. -/
def setGlobalLogLevel (r : LoggerRegistry) (level : LogLevel) : LoggerRegistry :=
  { loggers := r.loggers.map (fun e => (e.1, { e.2 with logLevel := level }))
    globalLogLevel := level }

/-! ## Basic lemmas about the tab list and activation -/

theorem length_modifyAt (l : List Page) (k : Nat) (f : Page → Page) :
    (modifyAt l k f).length = l.length := by
  induction l generalizing k with
  | nil => rfl
  | cons p rest ih =>
    cases k with
    | zero => rfl
    | succ n => simp [modifyAt, ih]

theorem getD_modifyAt (l : List Page) (k j : Nat) (f : Page → Page) (d : Page) :
    (modifyAt l k f).getD j d =
      if j = k ∧ j < l.length then f (l.getD j d) else l.getD j d := by
  induction l generalizing k j with
  | nil => simp [modifyAt]
  | cons p rest ih =>
    cases k with
    | zero =>
      cases j with
      | zero => simp [modifyAt]
      | succ m => simp [modifyAt]
    | succ n =>
      cases j with
      | zero => simp [modifyAt]
      | succ m =>
        simp only [modifyAt, List.getD_cons_succ, List.length_cons]
        rw [ih]
        have hiff : m + 1 = n + 1 ∧ m + 1 < rest.length + 1 ↔ m = n ∧ m < rest.length := by
          omega
        rw [if_congr hiff rfl rfl]

theorem activateTab_activeTab (s : ManagerState) (i : Nat) :
    (activateTab s i).1.activeTab = some i := by
  cases h : s.activeTab <;> simp [activateTab, deactivateCurrent, h]

theorem activateTab_length (s : ManagerState) (i : Nat) :
    (activateTab s i).1.tabs.length = s.tabs.length := by
  cases h : s.activeTab <;> simp [activateTab, deactivateCurrent, h, length_modifyAt]

theorem activateTab_containers (s : ManagerState) (i : Nat) :
    (activateTab s i).1.tabContainer = s.tabContainer
    ∧ (activateTab s i).1.contentContainer = s.contentContainer := by
  cases h : s.activeTab <;> simp [activateTab, deactivateCurrent, h]

theorem flagAt_activateTab_some (s : ManagerState) (i j k : Nat) (hj : j < s.tabs.length)
    (hk : s.activeTab = some k) :
    flagAt (activateTab s i).1 j =
      if j = i then true else if j = k then false else flagAt s j := by
  simp only [flagAt, activateTab, deactivateCurrent, hk]
  rw [getD_modifyAt, length_modifyAt, getD_modifyAt]
  by_cases hji : j = i
  · subst hji
    simp [hj]
  · by_cases hjk : j = k
    · subst hjk
      simp [hji, hj]
    · simp [hji, hjk]

theorem flagAt_activateTab_none (s : ManagerState) (i j : Nat) (hj : j < s.tabs.length)
    (hk : s.activeTab = none) :
    flagAt (activateTab s i).1 j = if j = i then true else flagAt s j := by
  simp only [flagAt, activateTab, deactivateCurrent, hk]
  rw [getD_modifyAt]
  by_cases hji : j = i
  · simp [hji, hji ▸ hj]
  · simp [hji]

theorem Inv_activateTab (s : ManagerState) (i : Nat) (hi : i < s.tabs.length)
    (hinv : Inv s) : Inv (activateTab s i).1 := by
  obtain ⟨k, hk, _, hflags⟩ := hinv
  refine ⟨i, activateTab_activeTab s i, by rw [activateTab_length]; exact hi, ?_⟩
  intro j hj
  rw [activateTab_length] at hj
  rw [flagAt_activateTab_some s i j k hj hk]
  by_cases hji : j = i
  · simp [hji]
  · by_cases hjk : j = k
    · simp [hji, hjk]
    · simp [hji, hjk, hflags j hj]

theorem findTabIdx_lt_length (l : List Page) (id : String) (j : Nat)
    (h : findTabIdx l id = some j) : j < l.length := by
  induction l generalizing j with
  | nil => simp [findTabIdx] at h
  | cons p rest ih =>
    by_cases hp : pageId p.name = id
    · simp [findTabIdx, hp] at h
      simp [List.length_cons]
      omega
    · simp [findTabIdx, hp, Option.map_eq_some'] at h
      obtain ⟨m, hm, rfl⟩ := h
      have := ih m hm
      simp
      omega

theorem inv_stepOp (s : ManagerState) (op : Op) (hinv : Inv s)
    (hval : OpValid s.tabs.length op) :
    Inv (stepOp s op) ∧ (stepOp s op).activeTab = opTarget s op := by
  cases op with
  | act i =>
    exact ⟨Inv_activateTab s i hval hinv, activateTab_activeTab s i⟩
  | setIdx i =>
    simp only [stepOp, setActiveTab, opTarget]
    by_cases h : 0 ≤ i ∧ i < (s.tabs.length : Int)
    · rw [if_pos h, if_pos h]
      obtain ⟨h1, h2⟩ := h
      have hlt : i.toNat < s.tabs.length := by omega
      exact ⟨Inv_activateTab s i.toNat hlt hinv, activateTab_activeTab s i.toNat⟩
    · rw [if_neg h, if_neg h]
      exact ⟨hinv, rfl⟩
  | setById id =>
    simp only [stepOp, setActiveTabById, opTarget]
    cases h : findTabIdx s.tabs id with
    | some j =>
      have hlt := findTabIdx_lt_length s.tabs id j h
      exact ⟨Inv_activateTab s j hlt hinv, activateTab_activeTab s j⟩
    | none =>
      exact ⟨hinv, rfl⟩

theorem stepOp_length (s : ManagerState) (op : Op) :
    (stepOp s op).tabs.length = s.tabs.length := by
  cases op with
  | act i => exact activateTab_length s i
  | setIdx i =>
    simp only [stepOp, setActiveTab]
    by_cases h : 0 ≤ i ∧ i < (s.tabs.length : Int)
    · rw [if_pos h]; exact activateTab_length s i.toNat
    · rw [if_neg h]
  | setById id =>
    simp only [stepOp, setActiveTabById]
    cases h : findTabIdx s.tabs id with
    | some j => exact activateTab_length s j
    | none => rfl

theorem isActive_getD_fresh (names : List String) (j : Nat) :
    ((names.map newPage).getD j defaultPage).isActive = false := by
  induction names generalizing j with
  | nil => rfl
  | cons n rest ih =>
    cases j with
    | zero => rfl
    | succ m => simpa using ih m

/-! ## Claim theorems -/

/-- C1: on a manager whose registry is non-empty and on which `display`
has run, every sequence of `activateTab` / `setActiveTab` /
`setActiveTabById` calls keeps the invariant that exactly one registered
page has `isActive = true`, namely the page most recently activated (the
one the `activeTab` reference points to): `display` establishes the
invariant, each single call preserves it with `activeTab` equal to the
call's activation target, and hence any fold of such calls preserves it. -/
theorem single_active_after_each_call :
    (∀ names : List String, names ≠ [] →
      ∃ s₀, (managerDisplay (freshManager names)).2 = Except.ok s₀
        ∧ Inv s₀ ∧ s₀.activeTab = some 0)
    ∧ (∀ s op, Inv s → OpValid s.tabs.length op →
        Inv (stepOp s op) ∧ (stepOp s op).activeTab = opTarget s op)
    ∧ (∀ s ops, Inv s → (∀ op ∈ ops, OpValid s.tabs.length op) →
        Inv (List.foldl stepOp s ops)) := by
  refine ⟨?_, inv_stepOp, ?_⟩
  · intro names hne
    obtain ⟨n, rest, rfl⟩ := List.exists_cons_of_ne_nil hne
    refine ⟨(activateTab ⟨(n :: rest).map newPage, none, true, true⟩ 0).1, rfl, ?_,
      activateTab_activeTab _ 0⟩
    have hlen : 0 < (((n :: rest).map newPage : List Page)).length := by simp
    refine ⟨0, activateTab_activeTab _ 0, by rw [activateTab_length]; exact hlen, ?_⟩
    intro j hj
    rw [activateTab_length] at hj
    rw [flagAt_activateTab_none _ 0 j hj rfl]
    by_cases hj0 : j = 0
    · simp [hj0]
    · have hfalse : flagAt ⟨(n :: rest).map newPage, none, true, true⟩ j = false :=
        isActive_getD_fresh (n :: rest) j
      rw [if_neg hj0, hfalse]
      simp [hj0]
  · intro s ops hinv hval
    induction ops generalizing s with
    | nil => exact hinv
    | cons op rest ih =>
      have h1 := inv_stepOp s op hinv (hval op (by simp))
      have := ih (stepOp s op) h1.1 (fun o ho => by
        rw [stepOp_length]; exact hval o (by simp [ho]))
      simpa using this

/-- Concrete state with tab 0 active, used to witness hypothesis-bearing
activation theorems. -/
def invExample : ManagerState := ⟨[⟨"A", true⟩, ⟨"B", false⟩], some 0, true, true⟩

theorem single_active_after_each_call_witness :
    Inv (stepOp invExample (Op.act 1))
    ∧ (stepOp invExample (Op.act 1)).activeTab = opTarget invExample (Op.act 1) :=
  single_active_after_each_call.2.1 invExample (Op.act 1)
    ⟨0, rfl, by decide, by decide⟩ (show 1 < invExample.tabs.length by decide)

theorem activateTab_trace_some (s : ManagerState) (i k : Nat) (hk : s.activeTab = some k)
    (htc : s.tabContainer = true) (hcc : s.contentContainer = true) :
    (activateTab s i).2 =
      [(Ev.deactivate k,
        { s with tabs := modifyAt s.tabs k (fun p => { p with isActive := false }) }),
       (Ev.activate i, (activateTab s i).1),
       (Ev.updateStyles, (activateTab s i).1),
       (Ev.emptyContent, (activateTab s i).1),
       (Ev.displayContent i, (activateTab s i).1)] := by
  simp [activateTab, deactivateCurrent, hk, updateTabButtonStyles,
    displayActiveTabContent, htc, hcc]

/-- C5 counterexample: on a manager whose page 0 (already active) is
re-activated, the deactivate branch DOES run — the trace opens with
`onDeactivate` on page 0, called with `isActive` already toggled to
`false` — because the branch only requires that a current active page
exists, not that it differs from the target. -/
theorem reactivate_runs_deactivate_counterexample :
    (activateTab invExample 0).2 =
      [(Ev.deactivate 0, ⟨[⟨"A", false⟩, ⟨"B", false⟩], some 0, true, true⟩),
       (Ev.activate 0, invExample),
       (Ev.updateStyles, invExample),
       (Ev.emptyContent, invExample),
       (Ev.displayContent 0, invExample)] := by
  decide

/-- C5 amended: activating the already-active page re-runs the deactivate
step on that very page — its `onDeactivate` is invoked, with `isActive`
already toggled to `false` at that moment — and then re-activates it in
full: `onActivate` runs, the flag ends `true`, and the page is
re-displayed into the content region. -/
theorem reactivate_active_full_sequence (s : ManagerState) (i : Nat)
    (hi : s.activeTab = some i) (hlen : i < s.tabs.length)
    (htc : s.tabContainer = true) (hcc : s.contentContainer = true) :
    (activateTab s i).2.map Prod.fst =
      [Ev.deactivate i, Ev.activate i, Ev.updateStyles, Ev.emptyContent, Ev.displayContent i]
    ∧ (∀ st, (Ev.deactivate i, st) ∈ (activateTab s i).2 → flagAt st i = false)
    ∧ flagAt (activateTab s i).1 i = true := by
  rw [activateTab_trace_some s i i hi htc hcc]
  refine ⟨by simp, ?_, ?_⟩
  · intro st hst
    simp only [List.mem_cons, List.mem_singleton, Prod.mk.injEq] at hst
    rcases hst with ⟨_, rfl⟩ | ⟨h, _⟩ | ⟨h, _⟩ | ⟨h, _⟩ | ⟨h, _⟩ | h
    · show ((modifyAt s.tabs i fun p => { p with isActive := false }).getD i
        defaultPage).isActive = false
      rw [getD_modifyAt]
      simp [hlen]
    · exact absurd h (by simp)
    · exact absurd h (by simp)
    · exact absurd h (by simp)
    · exact absurd h (by simp)
    · exact absurd h (by simp)
  · rw [flagAt_activateTab_some s i i i hlen hi]
    simp

theorem reactivate_active_full_sequence_witness :
    (activateTab invExample 0).2.map Prod.fst =
      [Ev.deactivate 0, Ev.activate 0, Ev.updateStyles, Ev.emptyContent, Ev.displayContent 0] :=
  (reactivate_active_full_sequence invExample 0 rfl (by decide) rfl rfl).1

/-- C6: activating page `b` while a different page `a` is active fires
`a.onDeactivate` first and `b.onActivate` second, and by the time
`b.display(contentRegion)` runs, both flags reflect the new state:
`a.isActive = false` and `b.isActive = true` (and the manager already
points at `b`). -/
theorem activation_lifecycle_ordering (s : ManagerState) (a b : Nat)
    (ha : s.activeTab = some a) (hab : a ≠ b)
    (hal : a < s.tabs.length) (hbl : b < s.tabs.length)
    (htc : s.tabContainer = true) (hcc : s.contentContainer = true) :
    (activateTab s b).2.map Prod.fst =
      [Ev.deactivate a, Ev.activate b, Ev.updateStyles, Ev.emptyContent, Ev.displayContent b]
    ∧ (∀ st, (Ev.displayContent b, st) ∈ (activateTab s b).2 →
        st.activeTab = some b ∧ flagAt st a = false ∧ flagAt st b = true) := by
  have hfa : flagAt (activateTab s b).1 a = false := by
    rw [flagAt_activateTab_some s b a a hal ha]
    simp [hab]
  have hfb : flagAt (activateTab s b).1 b = true := by
    rw [flagAt_activateTab_some s b b a hbl ha]
    simp
  rw [activateTab_trace_some s b a ha htc hcc]
  refine ⟨by simp, ?_⟩
  intro st hst
  simp only [List.mem_cons, List.mem_singleton, Prod.mk.injEq] at hst
  rcases hst with ⟨h, _⟩ | ⟨h, _⟩ | ⟨h, _⟩ | ⟨h, _⟩ | ⟨_, rfl⟩ | h
  · exact absurd h (by simp)
  · exact absurd h (by simp)
  · exact absurd h (by simp)
  · exact absurd h (by simp)
  · exact ⟨activateTab_activeTab s b, hfa, hfb⟩
  · exact absurd h (by simp)

theorem activation_lifecycle_ordering_witness :
    (activateTab invExample 1).2.map Prod.fst =
      [Ev.deactivate 0, Ev.activate 1, Ev.updateStyles, Ev.emptyContent, Ev.displayContent 1] :=
  (activation_lifecycle_ordering invExample 0 1 rfl (by decide) (by decide) (by decide)
    rfl rfl).1

/-- C4 counterexample: the part_000 `PluginSettingsTab.display`, called
with zero registered pages, raises the configuration error but ONLY AFTER
emptying the container — a DOM mutation the claim rules out. -/
theorem display_empty_counterexample :
    (pstDisplay newManager).1 = [(Ev.emptyContainer, newManager)]
    ∧ (pstDisplay newManager).2
      = Except.error "No tabs have been added to the settings tab" := by
  exact ⟨rfl, rfl⟩

/-- C4 amended: with zero registered pages, `SettingsTabManager.display`
(part_001) raises the configuration error synchronously with no DOM or
region mutation at all, while the part_000 `PluginSettingsTab.display`
first empties the container and then raises the error; neither creates a
tab-button region, a content region, or any button. -/
theorem display_empty_registry_amended (s : ManagerState) (h : s.tabs = []) :
    managerDisplay s = ([], Except.error "No tabs have been added to the manager")
    ∧ pstDisplay s
      = ([(Ev.emptyContainer, s)], Except.error "No tabs have been added to the settings tab") := by
  have hlen : s.tabs.length = 0 := by rw [h]; rfl
  exact ⟨by simp [managerDisplay, hlen], by simp [pstDisplay, hlen]⟩

theorem display_empty_registry_amended_witness :
    managerDisplay newManager = ([], Except.error "No tabs have been added to the manager")
    ∧ pstDisplay newManager
      = ([(Ev.emptyContainer, newManager)],
         Except.error "No tabs have been added to the settings tab") :=
  display_empty_registry_amended newManager rfl

/-- C8: after `display` completes on a manager holding three
just-registered pages and no explicit activation was requested, the first
page by insertion order is active and the other two are inactive; the
part_000 `PluginSettingsTab.display` reaches the same state. -/
theorem first_page_default_active (n1 n2 n3 : String) :
    ∃ st, (managerDisplay (freshManager [n1, n2, n3])).2 = Except.ok st
      ∧ (pstDisplay (freshManager [n1, n2, n3])).2 = Except.ok st
      ∧ flagAt st 0 = true ∧ flagAt st 1 = false ∧ flagAt st 2 = false
      ∧ st.activeTab = some 0 :=
  ⟨_, rfl, rfl, rfl, rfl, rfl, rfl⟩

/-- C9: `hide` on a settings tab with an active page clears that page's
`isActive` and calls its `onDeactivate`, but leaves the `activeTab`
reference pointing at that page; the next `activateTab` call, whatever its
target, therefore begins by calling `onDeactivate` on the
already-deactivated page a second time. -/
theorem hide_keeps_activeTab (s : ManagerState) (j : Nat)
    (hj : s.activeTab = some j) (hlen : j < s.tabs.length) :
    (hideTab s).1.activeTab = some j
    ∧ flagAt (hideTab s).1 j = false
    ∧ (hideTab s).2.map Prod.fst = [Ev.deactivate j]
    ∧ ∀ k, ((activateTab (hideTab s).1 k).2.map Prod.fst).head? = some (Ev.deactivate j) := by
  refine ⟨by simp [hideTab, hj], ?_, by simp [hideTab, hj], ?_⟩
  · simp only [hideTab, hj]
    show ((modifyAt s.tabs j fun p => { p with isActive := false }).getD j
      defaultPage).isActive = false
    rw [getD_modifyAt]
    simp [hlen]
  · intro k
    simp [hideTab, hj, activateTab, deactivateCurrent]

theorem hide_keeps_activeTab_witness :
    (hideTab invExample).1.activeTab = some 0
    ∧ flagAt (hideTab invExample).1 0 = false :=
  ⟨(hide_keeps_activeTab invExample 0 rfl (by decide)).1,
   (hide_keeps_activeTab invExample 0 rfl (by decide)).2.1⟩

/-! ## Logger claim -/

theorem lookupLogger_append (ls : List (String × Logger)) (name : String) (l : Logger)
    (h : lookupLogger ls name = none) :
    lookupLogger (ls ++ [(name, l)]) name = some l := by
  induction ls with
  | nil => simp [lookupLogger]
  | cons e rest ih =>
    obtain ⟨n, lg⟩ := e
    by_cases he : n = name
    · simp [lookupLogger, he] at h
    · simp only [List.cons_append, lookupLogger, he, if_false] at h ⊢
      exact ih h

/-- C10: `Logger.getLogger` returns the already-registered logger on a
repeated call with the same name (and leaves the registry untouched); a
logger it creates carries the global level current at creation time; and
`Logger.setGlobalLogLevel` stores the level and overwrites the level of
every logger in the registry. -/
theorem logger_registry_properties :
    (∀ r name, (getLogger (getLogger r name).2 name).1 = (getLogger r name).1
      ∧ (getLogger (getLogger r name).2 name).2 = (getLogger r name).2)
    ∧ (∀ r name, lookupLogger r.loggers name = none →
        (getLogger r name).1.logLevel = r.globalLogLevel)
    ∧ (∀ r level, (setGlobalLogLevel r level).globalLogLevel = level
        ∧ ∀ e ∈ (setGlobalLogLevel r level).loggers, e.2.logLevel = level) := by
  refine ⟨?_, ?_, ?_⟩
  · intro r name
    cases h : lookupLogger r.loggers name with
    | some l => simp [getLogger, h]
    | none =>
      have h2 := lookupLogger_append r.loggers name ⟨name, r.globalLogLevel⟩ h
      simp [getLogger, h, h2]
  · intro r name h
    simp [getLogger, h]
  · intro r level
    refine ⟨rfl, ?_⟩
    intro e he
    simp only [setGlobalLogLevel, List.mem_map] at he
    obtain ⟨x, _, rfl⟩ := he
    rfl

theorem logger_registry_properties_witness :
    (getLogger initialRegistry "main").1.logLevel = initialRegistry.globalLogLevel :=
  logger_registry_properties.2.1 initialRegistry "main" rfl

/-! ## Dropdown claims -/

/-- C2: for a dropdown whose options have pairwise-distinct values (with
pairwise-distinct keys, the data model's standing invariant for dropdown
options), `getValueForKey` inverts `getKeyForValue` on every value
occurring in the options; a value occurring in no option resolves to the
first option's key; with an empty options sequence the key is empty. -/
theorem dropdown_roundtrip_and_fallback {T : Type} [DecidableEq T]
    (options : List (DropOption T))
    (hkeys : (options.map DropOption.key).Nodup)
    (hvals : (options.map DropOption.value).Nodup) :
    (∀ o ∈ options,
      getValueForKey options (getKeyForValue options o.value) = Except.ok o.value)
    ∧ (∀ x, (∀ o ∈ options, o.value ≠ x) →
        ∀ o₀ rest, options = o₀ :: rest → getKeyForValue options x = o₀.key)
    ∧ (∀ x, getKeyForValue ([] : List (DropOption T)) x = "") := by
  refine ⟨?_, ?_, fun x => rfl⟩
  · intro o ho
    cases h1 : options.find? (fun o2 => decide (o2.value = o.value)) with
    | none =>
      exact absurd (by simp : (decide (o.value = o.value)) = true)
        (List.find?_eq_none.mp h1 o ho)
    | some o1 =>
      have ho1v : o1.value = o.value := by simpa using List.find?_some h1
      have ho1m : o1 ∈ options := List.mem_of_find?_eq_some h1
      have hkey : getKeyForValue options o.value = o1.key := by
        simp [getKeyForValue, h1]
      rw [hkey]
      cases h2 : options.find? (fun o2 => decide (o2.key = o1.key)) with
      | none =>
        exact absurd (by simp : (decide (o1.key = o1.key)) = true)
          (List.find?_eq_none.mp h2 o1 ho1m)
      | some o2 =>
        have ho2k : o2.key = o1.key := by simpa using List.find?_some h2
        have ho2m : o2 ∈ options := List.mem_of_find?_eq_some h2
        have heq : o2 = o1 := List.inj_on_of_nodup_map hkeys ho2m ho1m ho2k
        simp [getValueForKey, h2, heq, ho1v]
  · intro x hx o₀ rest hopt
    subst hopt
    have hnone : ((o₀ :: rest).find? (fun o2 => decide (o2.value = x))) = none :=
      List.find?_eq_none.mpr (fun o2 ho2 => by simp [hx o2 ho2])
    simp [getKeyForValue, hnone]

/-- Concrete three-entry dropdown used by witnesses. -/
def opts3 : List (DropOption Nat) :=
  [⟨"a", "A", 1⟩, ⟨"b", "B", 2⟩, ⟨"c", "C", 3⟩]

theorem dropdown_roundtrip_and_fallback_witness :
    getValueForKey opts3 (getKeyForValue opts3 2) = Except.ok 2 := by
  have h := (dropdown_roundtrip_and_fallback opts3 (by decide) (by decide)).1
    ⟨"b", "B", 2⟩ (by decide)
  exact h

/-- C3: for every setting variant, the rendered control's change handler
first commits the reported value through the value setter and only then
computes the observer's argument by re-reading the value getter on the
committed state; whenever the accessor pair satisfies the get-after-set
law the observer receives exactly the new value, never the stale one, and
the dropdown observer receives the resolved option value, never the raw
key. -/
theorem commit_before_notify :
    (∀ (σ : Type) (get : σ → Bool) (set : σ → Bool → σ) (s : σ) (v : Bool),
      toggleChange get set true s v = (set s v, some (get (set s v)))
      ∧ ((∀ s2 v2, get (set s2 v2) = v2) →
          toggleChange get set true s v = (set s v, some v)))
    ∧ (∀ (σ : Type) (get : σ → ℚ) (set : σ → ℚ → σ) (s : σ) (v : ℚ),
      sliderChange get set true s v = (set s v, some (get (set s v)))
      ∧ ((∀ s2 v2, get (set s2 v2) = v2) →
          sliderChange get set true s v = (set s v, some v)))
    ∧ (∀ (σ : Type) (get : σ → String) (set : σ → String → σ) (s : σ) (v : String),
      textInputChange get set true s v = (set s v, some (get (set s v)))
      ∧ ((∀ s2 v2, get (set s2 v2) = v2) →
          textInputChange get set true s v = (set s v, some v)))
    ∧ (∀ (σ : Type) (get : σ → String) (set : σ → String → σ) (s : σ) (v : String),
      textAreaChange get set true s v = (set s v, some (get (set s v)))
      ∧ ((∀ s2 v2, get (set s2 v2) = v2) →
          textAreaChange get set true s v = (set s v, some v)))
    ∧ (∀ (σ T : Type) (options : List (DropOption T)) (get : σ → T) (set : σ → T → σ)
        (s : σ) (key : String) (v : T),
      getValueForKey options key = Except.ok v →
      dropdownChange options get set true s key = Except.ok (set s v, some (get (set s v)))
      ∧ ((∀ s2 v2, get (set s2 v2) = v2) →
          dropdownChange options get set true s key = Except.ok (set s v, some v))) := by
  refine ⟨?_, ?_, ?_, ?_, ?_⟩
  · intro σ get set s v
    exact ⟨rfl, fun hcoh => by simp [toggleChange, hcoh]⟩
  · intro σ get set s v
    exact ⟨rfl, fun hcoh => by simp [sliderChange, hcoh]⟩
  · intro σ get set s v
    exact ⟨rfl, fun hcoh => by simp [textInputChange, hcoh]⟩
  · intro σ get set s v
    exact ⟨rfl, fun hcoh => by simp [textAreaChange, hcoh]⟩
  · intro σ T options get set s key v h
    exact ⟨by simp [dropdownChange, h], fun hcoh => by simp [dropdownChange, h, hcoh]⟩

theorem commit_before_notify_witness :
    dropdownChange opts3 id (fun _ v2 => v2) true 0 "b" = Except.ok (2, some 2) :=
  (commit_before_notify.2.2.2.2 Nat Nat opts3 id (fun _ v2 => v2) 0 "b" 2 rfl).2
    (fun _ _ => rfl)

/-- C7: `getValueForKey k` returns the value of the (first) option whose
key equals `k` when one exists, and raises the lookup error exactly when
no option has key `k`; the dropdown change handler does not catch the
error — it propagates out of the change path, with no write and no
notification. -/
theorem valueForKey_lookup_error {σ T : Type} (options : List (DropOption T)) (k : String) :
    ((∃ o ∈ options, o.key = k) →
      ∃ o ∈ options, o.key = k ∧ getValueForKey options k = Except.ok o.value)
    ∧ (getValueForKey options k = Except.error ("No option found for key: " ++ k)
        ↔ ∀ o ∈ options, o.key ≠ k)
    ∧ (∀ (get : σ → T) (set : σ → T → σ) (hasObserver : Bool) (s : σ) (e : String),
        getValueForKey options k = Except.error e →
        dropdownChange options get set hasObserver s k = Except.error e) := by
  refine ⟨?_, ⟨?_, ?_⟩, ?_⟩
  · rintro ⟨o, ho, hk⟩
    cases h : options.find? (fun o2 => decide (o2.key = k)) with
    | none =>
      exact absurd (by simp [hk] : (decide (o.key = k)) = true)
        (List.find?_eq_none.mp h o ho)
    | some o1 =>
      refine ⟨o1, List.mem_of_find?_eq_some h, ?_, by simp [getValueForKey, h]⟩
      simpa using List.find?_some h
  · intro herr o ho hk
    cases h : options.find? (fun o2 => decide (o2.key = k)) with
    | none =>
      exact absurd (by simp [hk] : (decide (o.key = k)) = true)
        (List.find?_eq_none.mp h o ho)
    | some o1 =>
      simp [getValueForKey, h] at herr
  · intro hall
    have hnone : options.find? (fun o2 => decide (o2.key = k)) = none :=
      List.find?_eq_none.mpr (fun o2 ho2 => by simp [hall o2 ho2])
    simp [getValueForKey, hnone]
  · intro get set hasObserver s e h
    simp [dropdownChange, h]

theorem valueForKey_lookup_error_witness :
    dropdownChange opts3 (id : Nat → Nat) (fun _ v2 => v2) true 0 "zz"
      = Except.error "No option found for key: zz" :=
  (@valueForKey_lookup_error Nat Nat opts3 "zz").2.2 id (fun _ v2 => v2) true 0
    "No option found for key: zz" rfl

end Obskit
